import Mathlib

/-!
Shallow embedding of the odds-tracking core of `src/database.py`.

The SQLite table `odds_snapshots` is modelled as a list of `DBRow`; its
REAL columns become `Option ℚ` (nullable exact numbers), INTEGER columns
`Option ℤ`, TEXT columns `String`.  `INSERT OR REPLACE` on the unique key
`(snapshot_date, snapshot_type, game_id, sportsbook)` becomes `upsertRow`.
The SQL self-join of `get_line_movements` becomes `joinedMovements`, and
the Python dictionary aggregation of `get_movement_by_book` becomes
`groupGames` / `mkAggregate`.  Sorting uses `List.mergeSort`, a stable
sort, matching Python `sorted` / `list.sort` and one admissible SQL
`ORDER BY` execution.
-/

namespace RTLB

/-- SQLite `LOWER`, applied to the STORED sportsbook column: ASCII-only
lowercase folding, one character at a time (`Char.toLower` folds exactly
`A`-`Z` and leaves every other character unchanged, as SQLite does
without the ICU extension). -/
def lowerStr (s : String) : String := String.mk (s.data.map Char.toLower)

/-- Python `str.lower` on one character, as applied to the FILTER
entries: the Unicode simple case mapping, which on ASCII agrees with
the `A`-`Z` fold and additionally folds the Latin-1 uppercase letters
`À`-`Þ` (U+00C0-U+00DE, excluding the multiplication sign U+00D7) by
adding 0x20.  Characters outside these two ranges are modelled as
unchanged; the development only applies this function to characters in
the modelled ranges. -/
def pythonLowerChar (c : Char) : Char :=
  if c.toNat ≥ 65 ∧ c.toNat ≤ 90 then Char.ofNat (c.toNat + 32)
  else if 192 ≤ c.toNat ∧ c.toNat ≤ 222 ∧ c.toNat ≠ 215 then Char.ofNat (c.toNat + 32)
  else c

/-- Python `str.lower` on a string (character-wise). -/
def pythonLower (s : String) : String := String.mk (s.data.map pythonLowerChar)

/-- Every character of the string is ASCII. -/
def asciiOnly (s : String) : Bool := s.data.all (fun c => decide (c.toNat < 128))

/-- The `OddsSnapshot` dataclass of `database.py`. -/
structure OddsSnapshot where
  timestamp : String
  snapshot_type : String
  league : String
  game_id : String
  away_team : String
  home_team : String
  commence_time : String
  sportsbook : String
  away_spread : Option ℚ
  away_spread_price : Option ℤ
  home_spread : Option ℚ
  home_spread_price : Option ℤ
  total : Option ℚ
  over_price : Option ℤ
  under_price : Option ℤ
deriving DecidableEq

/-- One stored row of the `odds_snapshots` table: an `OddsSnapshot`
plus the derived `snapshot_date` column. -/
structure DBRow where
  timestamp : String
  snapshot_type : String
  snapshot_date : String
  league : String
  game_id : String
  away_team : String
  home_team : String
  commence_time : String
  sportsbook : String
  away_spread : Option ℚ
  away_spread_price : Option ℤ
  home_spread : Option ℚ
  home_spread_price : Option ℤ
  total : Option ℚ
  over_price : Option ℤ
  under_price : Option ℤ
deriving DecidableEq

/-- The row written for a snapshot: `snapshot_date = snapshot.timestamp[:10]`. -/
def rowOfSnapshot (s : OddsSnapshot) : DBRow :=
  { timestamp := s.timestamp
    snapshot_type := s.snapshot_type
    snapshot_date := s.timestamp.take 10
    league := s.league
    game_id := s.game_id
    away_team := s.away_team
    home_team := s.home_team
    commence_time := s.commence_time
    sportsbook := s.sportsbook
    away_spread := s.away_spread
    away_spread_price := s.away_spread_price
    home_spread := s.home_spread
    home_spread_price := s.home_spread_price
    total := s.total
    over_price := s.over_price
    under_price := s.under_price }

/-- The unique key `(snapshot_date, snapshot_type, game_id, sportsbook)`
of a stored row. -/
def rowKey (r : DBRow) : String × String × String × String :=
  (r.snapshot_date, r.snapshot_type, r.game_id, r.sportsbook)

/-- The unique key a snapshot will be stored under. -/
def snapKey (s : OddsSnapshot) : String × String × String × String :=
  (s.timestamp.take 10, s.snapshot_type, s.game_id, s.sportsbook)

/-- `INSERT OR REPLACE`: every row with the same unique key is removed
and the new row is inserted. -/
def upsertRow (db : List DBRow) (s : OddsSnapshot) : List DBRow :=
  db.filter (fun r => decide (rowKey r ≠ snapKey s)) ++ [rowOfSnapshot s]

/-- The loop body of `save_snapshots`: each snapshot is upserted in turn. -/
def saveStore (snaps : List OddsSnapshot) (db : List DBRow) : List DBRow :=
  snaps.foldl upsertRow db

/-- `save_snapshots`: on an empty batch the function warns and returns
without reporting a saved count; otherwise every snapshot is upserted and
the logged count is `len(snapshots)`, the number of attempted rows.  The
second component is the reported count. -/
def save_snapshots (snaps : List OddsSnapshot) (db : List DBRow) :
    List DBRow × Option Nat :=
  if snaps.isEmpty then (db, none)
  else (saveStore snaps db, some snaps.length)

/-- The optional `snapshot_type` filter of `get_snapshots_for_date`. -/
def typeFilter (stype : Option String) (r : DBRow) : Bool :=
  match stype with
  | none => true
  | some t => r.snapshot_type == t

/-- The optional sportsbook filter:
`LOWER(sportsbook) IN (s.lower() for s in sportsbooks)`.  The stored
column goes through SQLite's ASCII-only `LOWER`, while the filter
entries are lowered on the Python side with the Unicode-aware
`str.lower`.  A `None` or empty list (falsy in Python) disables the
filter. -/
def bookFilter (sbs : Option (List String)) (name : String) : Bool :=
  match sbs with
  | none => true
  | some [] => true
  | some bs => (bs.map pythonLower).contains (lowerStr name)

/-- `get_snapshots_for_date(date, snapshot_type, sportsbooks)`. -/
def get_snapshots_for_date (date : String) (stype : Option String)
    (sbs : Option (List String)) (db : List DBRow) : List DBRow :=
  db.filter (fun r =>
    r.snapshot_date == date && typeFilter stype r && bookFilter sbs r.sportsbook)

/-- One row of the `get_line_movements` SELECT. -/
structure MovementRow where
  league : String
  game_id : String
  away_team : String
  home_team : String
  commence_time : String
  sportsbook : String
  open_spread : Option ℚ
  open_total : Option ℚ
  open_spread_price : Option ℤ
  open_over_price : Option ℤ
  close_spread : Option ℚ
  close_total : Option ℚ
  close_spread_price : Option ℤ
  close_over_price : Option ℤ
  spread_move : Option ℚ
  total_move : Option ℚ
  morning_time : String
  evening_time : String
deriving DecidableEq

/-- SQL arithmetic on nullable values: `e - m` is NULL when either side
is NULL. -/
def optSub (a b : Option ℚ) : Option ℚ :=
  match a, b with
  | some x, some y => some (x - y)
  | _, _ => none

/-- The SELECT list of `get_line_movements` for one joined pair
(`m` morning row, `e` evening row). -/
def mkMovementRow (m e : DBRow) : MovementRow :=
  { league := m.league
    game_id := m.game_id
    away_team := m.away_team
    home_team := m.home_team
    commence_time := m.commence_time
    sportsbook := m.sportsbook
    open_spread := m.away_spread
    open_total := m.total
    open_spread_price := m.away_spread_price
    open_over_price := m.over_price
    close_spread := e.away_spread
    close_total := e.total
    close_spread_price := e.away_spread_price
    close_over_price := e.over_price
    spread_move := optSub e.away_spread m.away_spread
    total_move := optSub e.total m.total
    morning_time := m.timestamp
    evening_time := e.timestamp }

/-- The ON / WHERE condition of the self-join in `get_line_movements`. -/
def joinCond (date : String) (sbs : Option (List String)) (m e : DBRow) : Bool :=
  m.game_id == e.game_id && m.sportsbook == e.sportsbook &&
  m.snapshot_date == e.snapshot_date &&
  m.snapshot_date == date && m.snapshot_type == "morning" &&
  e.snapshot_type == "evening" && e.snapshot_date == date &&
  bookFilter sbs m.sportsbook

/-- The unsorted join result of `get_line_movements`. -/
def joinedMovements (date : String) (sbs : Option (List String))
    (db : List DBRow) : List MovementRow :=
  db.flatMap (fun m => (db.filter (joinCond date sbs m)).map (mkMovementRow m))

/-- Comparison of nullable absolute keys with NULL below every value, as
SQLite orders NULLs. -/
def optAbsLe (a b : Option ℚ) : Bool :=
  match a, b with
  | none, _ => true
  | some _, none => false
  | some x, some y => decide (x ≤ y)

/-- `ORDER BY ABS(e.away_spread - m.away_spread) DESC` as a Boolean
relation: descending on `|spread_move|` with NULL keys last. -/
def movementLe (r s : MovementRow) : Bool :=
  optAbsLe (s.spread_move.map (fun v => |v|)) (r.spread_move.map (fun v => |v|))

/-- `get_line_movements(date, sportsbooks)`. -/
def get_line_movements (date : String) (sbs : Option (List String))
    (db : List DBRow) : List MovementRow :=
  (joinedMovements date sbs db).mergeSort movementLe

/-- The per-book entry stored in a game's `books` dictionary. -/
structure BookMovement where
  open_spread : Option ℚ
  close_spread : Option ℚ
  spread_move : Option ℚ
  open_total : Option ℚ
  close_total : Option ℚ
  total_move : Option ℚ
deriving DecidableEq

/-- The per-book value built from one movement row and stored under the
sportsbook key. -/
def mkBookMovement (r : MovementRow) : BookMovement :=
  { open_spread := r.open_spread
    close_spread := r.close_spread
    spread_move := r.spread_move
    open_total := r.open_total
    close_total := r.close_total
    total_move := r.total_move }

/-- One entry of the `games` dictionary before aggregation. -/
structure GameGroup where
  league : String
  away_team : String
  home_team : String
  commence_time : String
  books : List (String × BookMovement)
deriving DecidableEq

/-- `books[row.sportsbook] = value`: replace in place when the key exists,
append otherwise (Python dict insertion order). -/
def updateBooks (books : List (String × BookMovement)) (r : MovementRow) :
    List (String × BookMovement) :=
  if books.any (fun p => p.1 == r.sportsbook) then
    books.map (fun p => if p.1 == r.sportsbook then (p.1, mkBookMovement r) else p)
  else books ++ [(r.sportsbook, mkBookMovement r)]

/-- The grouping loop body of `get_movement_by_book`: a fresh game entry
is created on first sight, otherwise only its `books` dict is updated. -/
def groupStep (gs : List (String × GameGroup)) (r : MovementRow) :
    List (String × GameGroup) :=
  if gs.any (fun p => p.1 == r.game_id) then
    gs.map (fun p =>
      if p.1 == r.game_id then (p.1, { p.2 with books := updateBooks p.2.books r })
      else p)
  else
    gs ++ [(r.game_id,
      { league := r.league
        away_team := r.away_team
        home_team := r.home_team
        commence_time := r.commence_time
        books := [(r.sportsbook, mkBookMovement r)] })]

/-- Grouping of movement rows by `game_id`, in insertion order. -/
def groupGames (rows : List MovementRow) : List (String × GameGroup) :=
  rows.foldl groupStep []

/-- The `(book, spread_move)` pairs with a non-null delta. -/
def spreadPairs (books : List (String × BookMovement)) : List (String × ℚ) :=
  books.filterMap (fun p => p.2.spread_move.map (fun v => (p.1, v)))

/-- The `(book, total_move)` pairs with a non-null delta. -/
def totalPairs (books : List (String × BookMovement)) : List (String × ℚ) :=
  books.filterMap (fun p => p.2.total_move.map (fun v => (p.1, v)))

/-- `sorted(moves, key=lambda x: x[1])` comparison. -/
def pairLe (a b : String × ℚ) : Bool := decide (a.2 ≤ b.2)

/-- The five summary fields one min/max reduction produces. -/
structure RangeStats where
  diff : ℚ
  maxMove : Option ℚ
  maxBook : Option String
  minMove : Option ℚ
  minBook : Option String
deriving DecidableEq

/-- The reduction of `get_movement_by_book` for one list of non-null
`(book, delta)` pairs: with at least two pairs, sort ascending by value,
take first as min and last as max, and report `|max - min|`; otherwise
the diff stays `0` and the four min/max fields stay `None`. -/
def rangeStats (pairs : List (String × ℚ)) : RangeStats :=
  if 2 ≤ pairs.length then
    match pairs.mergeSort pairLe with
    | [] => { diff := 0, maxMove := none, maxBook := none, minMove := none, minBook := none }
    | p :: ps =>
      let q := ps.getLastD p
      { diff := |q.2 - p.2|
        maxMove := some q.2
        maxBook := some q.1
        minMove := some p.2
        minBook := some p.1 }
  else { diff := 0, maxMove := none, maxBook := none, minMove := none, minBook := none }

/-- `max(values, default=0)`. -/
def maxAbsD (vals : List ℚ) : ℚ :=
  match vals with
  | [] => 0
  | x :: xs => xs.foldl (fun a b => max a b) x

/-- One element of the result list of `get_movement_by_book`. -/
structure GameAggregate where
  game_id : String
  league : String
  away_team : String
  home_team : String
  commence_time : String
  books : List (String × BookMovement)
  spread_move_diff : ℚ
  max_spread_move : Option ℚ
  max_spread_move_book : Option String
  min_spread_move : Option ℚ
  min_spread_move_book : Option String
  total_move_diff : ℚ
  max_total_move : Option ℚ
  max_total_move_book : Option String
  min_total_move : Option ℚ
  min_total_move_book : Option String
  max_abs_spread : ℚ
  max_abs_total : ℚ
deriving DecidableEq

/-- The aggregate record appended to `results` for one qualifying game. -/
def mkAggregate (g : String) (gg : GameGroup) : GameAggregate :=
  let sp := spreadPairs gg.books
  let tp := totalPairs gg.books
  let ss := rangeStats sp
  let ts := rangeStats tp
  { game_id := g
    league := gg.league
    away_team := gg.away_team
    home_team := gg.home_team
    commence_time := gg.commence_time
    books := gg.books
    spread_move_diff := ss.diff
    max_spread_move := ss.maxMove
    max_spread_move_book := ss.maxBook
    min_spread_move := ss.minMove
    min_spread_move_book := ss.minBook
    total_move_diff := ts.diff
    max_total_move := ts.maxMove
    max_total_move_book := ts.maxBook
    min_total_move := ts.minMove
    min_total_move_book := ts.minBook
    max_abs_spread := maxAbsD (sp.map (fun p => |p.2|))
    max_abs_total := maxAbsD (tp.map (fun p => |p.2|)) }

/-- The sort key of the final `results.sort`. -/
def combinedScore (a : GameAggregate) : ℚ := a.max_abs_spread + a.max_abs_total

/-- `results.sort(key=..., reverse=True)` comparison: descending on the
combined score. -/
def aggLe (a b : GameAggregate) : Bool := decide (combinedScore b ≤ combinedScore a)

/-- `get_movement_by_book(date, sportsbooks)`. -/
def get_movement_by_book (date : String) (sbs : Option (List String))
    (db : List DBRow) : List GameAggregate :=
  if (get_line_movements date sbs db).isEmpty then []
  else
    ((groupGames (get_line_movements date sbs db)).filterMap (fun p =>
      if 2 ≤ p.2.books.length then some (mkAggregate p.1 p.2) else none)).mergeSort
      aggLe


/-! ### Derived predicates and concrete example data -/

/-- The list of keys of an association list (a Python dict in insertion
order). -/
def keysOf {α : Type} (l : List (String × α)) : List String := l.map Prod.fst

/-- At most one stored row per unique key. -/
def UniqueKeys (db : List DBRow) : Prop := (db.map rowKey).Nodup

/-- Date used by the concrete instances below. -/
def exDate : String := "2026-01-10"

/-- One concrete stored row with the given game, sportsbook, snapshot
type, away spread and total. -/
def exRow (g bk ty : String) (sp tot : Option ℚ) : DBRow :=
  { timestamp := ty, snapshot_type := ty, snapshot_date := exDate, league := "NBA",
    game_id := g, away_team := "AWY", home_team := "HOM", commence_time := "19:00",
    sportsbook := bk, away_spread := sp, away_spread_price := none,
    home_spread := none, home_spread_price := none, total := tot,
    over_price := none, under_price := none }

/-- One game, two books, full morning and evening data; book A moves the
spread by -2 and book B by +1. -/
def exDb1 : List DBRow :=
  [exRow "g1" "A" "morning" (some 0) (some 200),
   exRow "g1" "A" "evening" (some (-2)) (some 198),
   exRow "g1" "B" "morning" (some 0) (some 200),
   exRow "g1" "B" "evening" (some 1) (some 199)]

/-- The game group the aggregation builds from `exDb1`. -/
def exGroup1 : GameGroup :=
  { league := "NBA", away_team := "AWY", home_team := "HOM", commence_time := "19:00",
    books :=
      [("A", mkBookMovement (mkMovementRow (exRow "g1" "A" "morning" (some 0) (some 200))
          (exRow "g1" "A" "evening" (some (-2)) (some 198)))),
       ("B", mkBookMovement (mkMovementRow (exRow "g1" "B" "morning" (some 0) (some 200))
          (exRow "g1" "B" "evening" (some 1) (some 199))))] }

/-- One game with only morning snapshots for both of its books. -/
def exDb3 : List DBRow :=
  [exRow "g3" "A" "morning" (some 5) (some 210),
   exRow "g3" "B" "morning" (some 5) (some 210)]

/-- One game with both snapshots but a single reporting book. -/
def exDb4 : List DBRow :=
  [exRow "g4" "A" "morning" (some 3) (some 210),
   exRow "g4" "A" "evening" (some 4) (some 212)]

/-- One game, two books; book A has a null morning spread, so its spread
delta is null. -/
def exDb5 : List DBRow :=
  [exRow "g1" "A" "morning" none (some 200),
   exRow "g1" "A" "evening" (some (-2)) (some 198),
   exRow "g1" "B" "morning" (some 0) (some 200),
   exRow "g1" "B" "evening" (some 1) (some 199)]

/-- The game group the aggregation builds from `exDb5`: book B sorts
first because a null spread delta sorts last. -/
def exGroup5 : GameGroup :=
  { league := "NBA", away_team := "AWY", home_team := "HOM", commence_time := "19:00",
    books :=
      [("B", mkBookMovement (mkMovementRow (exRow "g1" "B" "morning" (some 0) (some 200))
          (exRow "g1" "B" "evening" (some 1) (some 199)))),
       ("A", mkBookMovement (mkMovementRow (exRow "g1" "A" "morning" none (some 200))
          (exRow "g1" "A" "evening" (some (-2)) (some 198))))] }

/-- One stored row whose sportsbook carries the API's original casing. -/
def exDb9 : List DBRow := [exRow "g1" "FanDuel" "morning" (some 0) (some 200)]

/-- One stored row whose sportsbook is the non-ASCII name "É". -/
def exDb9E : List DBRow := [exRow "g1" "É" "morning" (some 0) (some 200)]

/-- One game, two books, every away spread null, totals present. -/
def exDb10 : List DBRow :=
  [exRow "g1" "A" "morning" none (some 200),
   exRow "g1" "A" "evening" none (some 198),
   exRow "g1" "B" "morning" none (some 200),
   exRow "g1" "B" "evening" none (some 199)]

/-- One concrete snapshot with the given timestamp, sportsbook and
spread. -/
def exSnap (ts bk : String) (sp : Option ℚ) : OddsSnapshot :=
  { timestamp := ts, snapshot_type := "morning", league := "NBA", game_id := "g1",
    away_team := "AWY", home_team := "HOM", commence_time := "19:00", sportsbook := bk,
    away_spread := sp, away_spread_price := none, home_spread := none,
    home_spread_price := none, total := some 200, over_price := none,
    under_price := none }

/-! ### Generic helpers -/

lemma two_le_length_of_mem {α : Type} {l : List α} {a b : α}
    (ha : a ∈ l) (hb : b ∈ l) (hab : a ≠ b) : 2 ≤ l.length := by
  cases l with
  | nil => simp at ha
  | cons x t =>
    cases t with
    | nil =>
      simp at ha hb
      exact absurd (ha.trans hb.symm) hab
    | cons y s => simp [List.length]

lemma exists_two_ne_of_nodup {α : Type} {l : List α}
    (hn : l.Nodup) (h2 : 2 ≤ l.length) :
    ∃ a ∈ l, ∃ b ∈ l, a ≠ b := by
  cases l with
  | nil => simp at h2
  | cons x t =>
    cases t with
    | nil => simp at h2
    | cons y s =>
      refine ⟨x, by simp, y, by simp, ?_⟩
      intro hxy
      subst hxy
      simp [List.nodup_cons] at hn

lemma mem_keysOf {α : Type} {l : List (String × α)} {k : String} :
    k ∈ keysOf l ↔ ∃ v, (k, v) ∈ l := by
  simp only [keysOf, List.mem_map]
  constructor
  · rintro ⟨⟨k0, v⟩, hm, rfl⟩
    exact ⟨v, hm⟩
  · rintro ⟨v, hm⟩
    exact ⟨(k, v), hm, rfl⟩

lemma entry_unique {α : Type} {l : List (String × α)} {k : String} {a b : α}
    (hn : (keysOf l).Nodup) (ha : (k, a) ∈ l) (hb : (k, b) ∈ l) : a = b := by
  induction l with
  | nil => simp at ha
  | cons p t ih =>
    have hn1 : p.1 ∉ keysOf t := (List.nodup_cons.mp hn).1
    have hn2 : (keysOf t).Nodup := (List.nodup_cons.mp hn).2
    rcases List.mem_cons.mp ha with h1 | h1 <;>
      rcases List.mem_cons.mp hb with h2 | h2
    · have := h1.trans h2.symm
      exact congrArg Prod.snd this
    · exfalso
      apply hn1
      rw [show p.1 = k from congrArg Prod.fst h1.symm]
      exact mem_keysOf.mpr ⟨b, h2⟩
    · exfalso
      apply hn1
      rw [show p.1 = k from congrArg Prod.fst h2.symm]
      exact mem_keysOf.mpr ⟨a, h1⟩
    · exact ih hn2 h1 h2

/-! ### Snapshot-store lemmas (save / upsert) -/

lemma rowKey_rowOfSnapshot (s : OddsSnapshot) :
    rowKey (rowOfSnapshot s) = snapKey s := by
  simp [rowKey, rowOfSnapshot, snapKey]

lemma uniqueKeys_upsertRow {db : List DBRow} (s : OddsSnapshot)
    (h : UniqueKeys db) : UniqueKeys (upsertRow db s) := by
  unfold UniqueKeys upsertRow
  rw [List.map_append]
  rw [List.nodup_append]
  refine ⟨(List.Sublist.map rowKey (List.filter_sublist db)).nodup h, by simp, ?_⟩
  intro k hk
  simp only [List.mem_map, List.mem_filter, decide_eq_true_eq] at hk
  obtain ⟨r, ⟨_, hne⟩, rfl⟩ := hk
  simp only [List.map_cons, List.map_nil, List.mem_singleton, rowKey_rowOfSnapshot]
  exact fun hc => hne hc

lemma uniqueKeys_saveStore {db : List DBRow} (snaps : List OddsSnapshot)
    (h : UniqueKeys db) : UniqueKeys (saveStore snaps db) := by
  induction snaps generalizing db with
  | nil => exact h
  | cons s rest ih => exact ih (uniqueKeys_upsertRow s h)

lemma filter_ne_key_length {db : List DBRow} {k : String × String × String × String}
    (h : (db.map rowKey).Nodup) (hex : ∃ r ∈ db, rowKey r = k) :
    (db.filter (fun r => decide (rowKey r ≠ k))).length + 1 = db.length := by
  induction db with
  | nil => simp at hex
  | cons r t ih =>
    simp only [List.map_cons, List.nodup_cons] at h
    by_cases hk : rowKey r = k
    · have ht : t.filter (fun r => decide (rowKey r ≠ k)) = t := by
        apply List.filter_eq_self.mpr
        intro a ha
        simp only [decide_eq_true_eq]
        intro hc
        apply h.1
        rw [hk, ← hc]
        exact List.mem_map_of_mem rowKey ha
      rw [List.filter_cons, if_neg (by simp [hk]), ht]
      simp
    · obtain ⟨r0, hr0, hk0⟩ := hex
      have hr0t : r0 ∈ t := by
        rcases List.mem_cons.mp hr0 with h1 | h1
        · exact absurd (h1 ▸ hk0) hk
        · exact h1
      rw [List.filter_cons, if_pos (by simp [hk])]
      simp only [List.length_cons]
      have := ih h.2 ⟨r0, hr0t, hk0⟩
      omega

lemma length_upsertRow_of_mem {db : List DBRow} {s : OddsSnapshot}
    (h : UniqueKeys db) (hex : ∃ r ∈ db, rowKey r = snapKey s) :
    (upsertRow db s).length = db.length := by
  unfold upsertRow
  rw [List.length_append]
  simp only [List.length_cons, List.length_nil]
  have := filter_ne_key_length h hex
  omega

lemma upsertRow_key_eq {db : List DBRow} {s : OddsSnapshot} {r : DBRow}
    (hr : r ∈ upsertRow db s) (hk : rowKey r = snapKey s) :
    r = rowOfSnapshot s := by
  unfold upsertRow at hr
  rcases List.mem_append.mp hr with h1 | h1
  · rw [List.mem_filter] at h1
    exact absurd hk (by simpa using h1.2)
  · simpa using h1

lemma key_present_upsertRow {db : List DBRow} {k : String × String × String × String}
    (s : OddsSnapshot) (h : ∃ r ∈ db, rowKey r = k) :
    ∃ r ∈ upsertRow db s, rowKey r = k := by
  by_cases hk : k = snapKey s
  · exact ⟨rowOfSnapshot s, by simp [upsertRow], (rowKey_rowOfSnapshot s).trans hk.symm⟩
  · obtain ⟨r, hr, hkr⟩ := h
    refine ⟨r, ?_, hkr⟩
    unfold upsertRow
    apply List.mem_append_left
    rw [List.mem_filter]
    exact ⟨hr, by simp [hkr, hk]⟩

lemma key_present_saveStore {db : List DBRow} {k : String × String × String × String}
    (snaps : List OddsSnapshot) (h : ∃ r ∈ db, rowKey r = k) :
    ∃ r ∈ saveStore snaps db, rowKey r = k := by
  induction snaps generalizing db with
  | nil => exact h
  | cons s rest ih => exact ih (key_present_upsertRow s h)

lemma snapKey_present_saveStore {db : List DBRow} {snaps : List OddsSnapshot}
    {s : OddsSnapshot} (hs : s ∈ snaps) :
    ∃ r ∈ saveStore snaps db, rowKey r = snapKey s := by
  induction snaps generalizing db with
  | nil => simp at hs
  | cons s0 rest ih =>
    rcases List.mem_cons.mp hs with h1 | h1
    · subst h1
      exact key_present_saveStore rest
        ⟨rowOfSnapshot s, by simp [upsertRow], rowKey_rowOfSnapshot s⟩
    · exact ih h1

/-! ### Sportsbook-filter lemmas -/

lemma pythonLowerChar_ascii {c : Char} (h : c.toNat < 128) :
    pythonLowerChar c = Char.toLower c := by
  unfold pythonLowerChar Char.toLower
  by_cases h1 : c.toNat ≥ 65 ∧ c.toNat ≤ 90
  · simp [h1]
  · rw [if_neg h1, if_neg (by omega)]
    simp [h1]

lemma pythonLower_eq_lowerStr_of_ascii {s : String} (h : asciiOnly s = true) :
    pythonLower s = lowerStr s := by
  unfold pythonLower lowerStr
  congr 1
  apply List.map_congr_left
  intro c hc
  have := List.all_eq_true.mp h c hc
  exact pythonLowerChar_ascii (by simpa using this)

lemma bookFilter_congr {bs bs2 : List String}
    (h : bs.map pythonLower = bs2.map pythonLower) (name : String) :
    bookFilter (some bs) name = bookFilter (some bs2) name := by
  cases bs with
  | nil =>
    cases bs2 with
    | nil => rfl
    | cons b t => simp at h
  | cons b t =>
    cases bs2 with
    | nil => simp at h
    | cons b2 t2 => simp only [bookFilter, h]

lemma bookFilter_some_iff {bs : List String} (hne : bs ≠ []) (name : String) :
    bookFilter (some bs) name = true ↔ ∃ b ∈ bs, pythonLower b = lowerStr name := by
  cases bs with
  | nil => exact absurd rfl hne
  | cons b t =>
    simp only [bookFilter, List.contains_iff_exists_mem_beq, List.mem_map]
    constructor
    · rintro ⟨x, ⟨b0, hb0, rfl⟩, hbeq⟩
      exact ⟨b0, hb0, (beq_iff_eq.mp hbeq).symm⟩
    · rintro ⟨b0, hb0, hb⟩
      exact ⟨pythonLower b0, ⟨b0, hb0, rfl⟩, beq_iff_eq.mpr hb.symm⟩

/-! ### Join lemmas -/

lemma mem_joinedMovements {date : String} {sbs : Option (List String)} {db : List DBRow}
    {r : MovementRow} :
    r ∈ joinedMovements date sbs db ↔
      ∃ m ∈ db, ∃ e ∈ db, joinCond date sbs m e = true ∧ r = mkMovementRow m e := by
  simp only [joinedMovements, List.mem_flatMap, List.mem_map, List.mem_filter]
  constructor
  · rintro ⟨m, hm, e, ⟨he, hc⟩, hr⟩
    exact ⟨m, hm, e, he, hc, hr.symm⟩
  · rintro ⟨m, hm, e, he, hc, hr⟩
    exact ⟨m, hm, e, ⟨he, hc⟩, hr.symm⟩

lemma mem_get_line_movements {date : String} {sbs : Option (List String)}
    {db : List DBRow} {r : MovementRow} :
    r ∈ get_line_movements date sbs db ↔ r ∈ joinedMovements date sbs db := by
  unfold get_line_movements
  exact List.mem_mergeSort

lemma joinCond_iff {date : String} {sbs : Option (List String)} {m e : DBRow} :
    joinCond date sbs m e = true ↔
      m.game_id = e.game_id ∧ m.sportsbook = e.sportsbook ∧
      m.snapshot_date = e.snapshot_date ∧ m.snapshot_date = date ∧
      m.snapshot_type = "morning" ∧ e.snapshot_type = "evening" ∧
      e.snapshot_date = date ∧ bookFilter sbs m.sportsbook = true := by
  simp [joinCond, Bool.and_eq_true, and_assoc]

/-! ### Grouping lemmas -/

lemma keysOf_map_update {α : Type} (l : List (String × α)) (k : String) (g : String × α → α) :
    keysOf (l.map (fun p => if p.1 == k then (p.1, g p) else p)) = keysOf l := by
  unfold keysOf
  rw [List.map_map]
  apply List.map_congr_left
  intro p hp
  by_cases h : (p.1 == k) = true <;> simp [Function.comp, h]

lemma any_key_iff {α : Type} (l : List (String × α)) (k : String) :
    (l.any (fun p => p.1 == k)) = true ↔ k ∈ keysOf l := by
  rw [List.any_eq_true]
  constructor
  · rintro ⟨p, hp, hb⟩
    have : p.1 = k := by simpa using hb
    exact this ▸ List.mem_map_of_mem Prod.fst hp
  · intro hk
    obtain ⟨v, hv⟩ := mem_keysOf.mp hk
    exact ⟨(k, v), hv, by simp⟩

lemma keysOf_updateBooks (books : List (String × BookMovement)) (r : MovementRow) :
    keysOf (updateBooks books r) =
      if books.any (fun p => p.1 == r.sportsbook) then keysOf books
      else keysOf books ++ [r.sportsbook] := by
  unfold updateBooks
  split
  · exact keysOf_map_update books r.sportsbook (fun _ => mkBookMovement r)
  · simp [keysOf]

lemma sb_mem_keysOf_updateBooks (books : List (String × BookMovement)) (r : MovementRow) :
    r.sportsbook ∈ keysOf (updateBooks books r) := by
  rw [keysOf_updateBooks]
  split
  case isTrue h => exact (any_key_iff books r.sportsbook).mp h
  case isFalse h => simp

lemma keysOf_superset_updateBooks (books : List (String × BookMovement)) (r : MovementRow)
    (k : String) (hk : k ∈ keysOf books) : k ∈ keysOf (updateBooks books r) := by
  rw [keysOf_updateBooks]
  split
  · exact hk
  · simp [hk]

lemma nodup_keysOf_updateBooks (books : List (String × BookMovement)) (r : MovementRow)
    (h : (keysOf books).Nodup) : (keysOf (updateBooks books r)).Nodup := by
  rw [keysOf_updateBooks]
  split
  case isTrue _ => exact h
  case isFalse hany =>
    have hnot : r.sportsbook ∉ keysOf books := fun hc =>
      hany ((any_key_iff books r.sportsbook).mpr hc)
    simp [List.nodup_append, h, hnot]

lemma mem_updateBooks {books : List (String × BookMovement)} {r : MovementRow}
    {q : String × BookMovement} (hq : q ∈ updateBooks books r) :
    (∃ q0 ∈ books, q.1 = q0.1) ∨ q.1 = r.sportsbook := by
  unfold updateBooks at hq
  split at hq
  · obtain ⟨p, hp, heq⟩ := List.mem_map.mp hq
    split at heq <;> exact Or.inl ⟨p, hp, by rw [← heq]⟩
  · rcases List.mem_append.mp hq with h1 | h1
    · exact Or.inl ⟨q, h1, rfl⟩
    · right
      rw [List.mem_singleton.mp h1]

lemma keysOf_groupStep (gs : List (String × GameGroup)) (r : MovementRow) :
    keysOf (groupStep gs r) =
      if gs.any (fun p => p.1 == r.game_id) then keysOf gs
      else keysOf gs ++ [r.game_id] := by
  unfold groupStep
  split
  · exact keysOf_map_update gs r.game_id
      (fun p => { p.2 with books := updateBooks p.2.books r })
  · simp [keysOf]

lemma nodup_keysOf_foldl (rows : List MovementRow) :
    ∀ gs : List (String × GameGroup), (keysOf gs).Nodup →
      (keysOf (rows.foldl groupStep gs)).Nodup := by
  induction rows with
  | nil => intro gs h; exact h
  | cons r rest ih =>
    intro gs h
    simp only [List.foldl_cons]
    apply ih
    rw [keysOf_groupStep]
    split
    case isTrue _ => exact h
    case isFalse hany =>
      have hnot : r.game_id ∉ keysOf gs := fun hc =>
        hany ((any_key_iff gs r.game_id).mpr hc)
      simp [List.nodup_append, h, hnot]

lemma nodup_keysOf_groupGames (rows : List MovementRow) :
    (keysOf (groupGames rows)).Nodup :=
  nodup_keysOf_foldl rows [] (by simp [keysOf])

lemma books_nodup_foldl (rows : List MovementRow) :
    ∀ gs : List (String × GameGroup), (∀ p ∈ gs, (keysOf p.2.books).Nodup) →
      ∀ p ∈ rows.foldl groupStep gs, (keysOf p.2.books).Nodup := by
  induction rows with
  | nil => intro gs h; exact h
  | cons r rest ih =>
    intro gs h
    simp only [List.foldl_cons]
    apply ih
    intro p hp
    unfold groupStep at hp
    split at hp
    · obtain ⟨p0, hp0, heq⟩ := List.mem_map.mp hp
      split at heq
      · rw [← heq]
        exact nodup_keysOf_updateBooks _ _ (h p0 hp0)
      · rw [← heq]
        exact h p0 hp0
    · rcases List.mem_append.mp hp with h1 | h1
      · exact h p h1
      · rw [List.mem_singleton.mp h1]
        simp [keysOf]

lemma books_nodup_groupGames (rows : List MovementRow) :
    ∀ p ∈ groupGames rows, (keysOf p.2.books).Nodup :=
  books_nodup_foldl rows [] (by simp)

lemma foldl_books_sound (C : String → String → Prop) :
    ∀ (rows : List MovementRow) (gs : List (String × GameGroup)),
      (∀ r ∈ rows, C r.game_id r.sportsbook) →
      (∀ p ∈ gs, ∀ q ∈ p.2.books, C p.1 q.1) →
      ∀ p ∈ rows.foldl groupStep gs, ∀ q ∈ p.2.books, C p.1 q.1 := by
  intro rows
  induction rows with
  | nil => intro gs _ hinv; exact hinv
  | cons r rest ih =>
    intro gs hrows hinv
    simp only [List.foldl_cons]
    apply ih
    · intro x hx
      exact hrows x (List.mem_cons_of_mem r hx)
    · have hCr : C r.game_id r.sportsbook := hrows r (List.mem_cons_self r rest)
      intro p hp q hq
      unfold groupStep at hp
      split at hp
      · obtain ⟨p0, hp0, heq⟩ := List.mem_map.mp hp
        by_cases hb : (p0.1 == r.game_id) = true
        · rw [if_pos hb] at heq
          cases heq
          rcases mem_updateBooks hq with ⟨q0, hq0, hqq⟩ | hsb
          · rw [hqq]
            exact hinv p0 hp0 q0 hq0
          · rw [hsb, show p0.1 = r.game_id from by simpa using hb]
            exact hCr
        · rw [if_neg hb] at heq
          rw [← heq] at hq ⊢
          exact hinv p0 hp0 q hq
      · rcases List.mem_append.mp hp with h1 | h1
        · exact hinv p h1 q hq
        · rw [List.mem_singleton.mp h1] at hq ⊢
          rw [List.mem_singleton.mp hq]
          exact hCr

lemma books_sound_groupGames (rows : List MovementRow) :
    ∀ p ∈ groupGames rows, ∀ q ∈ p.2.books,
      ∃ r ∈ rows, r.game_id = p.1 ∧ r.sportsbook = q.1 := by
  apply foldl_books_sound (fun g b => ∃ r ∈ rows, r.game_id = g ∧ r.sportsbook = b)
  · intro r hr
    exact ⟨r, hr, rfl, rfl⟩
  · intro p hp
    simp at hp

lemma groupStep_preserves {gs : List (String × GameGroup)} {r : MovementRow}
    {g bk : String} (h : ∃ gg, (g, gg) ∈ gs ∧ bk ∈ keysOf gg.books) :
    ∃ gg, (g, gg) ∈ groupStep gs r ∧ bk ∈ keysOf gg.books := by
  obtain ⟨gg, hgg, hbk⟩ := h
  unfold groupStep
  split
  · by_cases hb : ((g, gg).1 == r.game_id) = true
    · refine ⟨{ gg with books := updateBooks gg.books r }, ?_,
        keysOf_superset_updateBooks _ _ _ hbk⟩
      have := List.mem_map_of_mem
        (fun p => if p.1 == r.game_id then
          (p.1, { p.2 with books := updateBooks p.2.books r }) else p) hgg
      simpa [hb] using this
    · refine ⟨gg, ?_, hbk⟩
      have := List.mem_map_of_mem
        (fun p => if p.1 == r.game_id then
          (p.1, { p.2 with books := updateBooks p.2.books r }) else p) hgg
      simpa [hb] using this
  · exact ⟨gg, List.mem_append_left _ hgg, hbk⟩

lemma groupStep_self (gs : List (String × GameGroup)) (r : MovementRow) :
    ∃ gg, (r.game_id, gg) ∈ groupStep gs r ∧ r.sportsbook ∈ keysOf gg.books := by
  unfold groupStep
  split
  case isTrue h =>
    obtain ⟨p0, hp0, hb⟩ := List.any_eq_true.mp h
    have hp1 : p0.1 = r.game_id := by simpa using hb
    refine ⟨{ p0.2 with books := updateBooks p0.2.books r }, ?_,
      sb_mem_keysOf_updateBooks _ _⟩
    have := List.mem_map_of_mem
      (fun p => if p.1 == r.game_id then
        (p.1, { p.2 with books := updateBooks p.2.books r }) else p) hp0
    simpa [hb, hp1] using this
  case isFalse h =>
    refine ⟨_, List.mem_append_right _ (List.mem_singleton.mpr rfl), ?_⟩
    simp [keysOf]

lemma foldl_complete_pres (rows : List MovementRow) :
    ∀ (gs : List (String × GameGroup)) (g bk : String),
      (∃ gg, (g, gg) ∈ gs ∧ bk ∈ keysOf gg.books) →
      ∃ gg, (g, gg) ∈ rows.foldl groupStep gs ∧ bk ∈ keysOf gg.books := by
  induction rows with
  | nil => intro gs g bk h; exact h
  | cons r rest ih =>
    intro gs g bk h
    simp only [List.foldl_cons]
    exact ih _ g bk (groupStep_preserves h)

lemma foldl_complete (rows : List MovementRow) :
    ∀ (gs : List (String × GameGroup)) (r0 : MovementRow), r0 ∈ rows →
      ∃ gg, (r0.game_id, gg) ∈ rows.foldl groupStep gs ∧
        r0.sportsbook ∈ keysOf gg.books := by
  induction rows with
  | nil => intro gs r0 h; simp at h
  | cons r rest ih =>
    intro gs r0 h
    simp only [List.foldl_cons]
    rcases List.mem_cons.mp h with h1 | h1
    · subst h1
      exact foldl_complete_pres rest _ _ _ (groupStep_self gs r0)
    · exact ih _ r0 h1

lemma groupGames_complete {rows : List MovementRow} {r0 : MovementRow} (h : r0 ∈ rows) :
    ∃ gg, (r0.game_id, gg) ∈ groupGames rows ∧ r0.sportsbook ∈ keysOf gg.books :=
  foldl_complete rows [] r0 h

/-! ### Reduction (rangeStats) lemmas -/

lemma pairLe_trans : ∀ a b c : String × ℚ,
    pairLe a b = true → pairLe b c = true → pairLe a c = true := by
  intro a b c hab hbc
  simp only [pairLe, decide_eq_true_eq] at hab hbc ⊢
  exact le_trans hab hbc

lemma pairLe_total : ∀ a b : String × ℚ, (pairLe a b || pairLe b a) = true := by
  intro a b
  simp only [pairLe, Bool.or_eq_true, decide_eq_true_eq]
  exact le_total a.2 b.2

lemma getLastD_mem {α : Type} : ∀ (l : List α) (a : α), l.getLastD a ∈ a :: l := by
  intro l
  induction l with
  | nil => intro a; simp
  | cons b t ih =>
    intro a
    rw [List.getLastD_cons]
    exact List.mem_cons_of_mem a (ih b)

lemma pairwise_head_le {l : List (String × ℚ)} {p : String × ℚ}
    (h : List.Pairwise (fun a b => pairLe a b = true) (p :: l)) :
    ∀ x ∈ p :: l, p.2 ≤ x.2 := by
  intro x hx
  rcases List.mem_cons.mp hx with h1 | h1
  · subst h1
    exact le_refl _
  · have := (List.pairwise_cons.mp h).1 x h1
    simpa [pairLe] using this

lemma pairwise_le_getLastD : ∀ (l : List (String × ℚ)) (p : String × ℚ),
    List.Pairwise (fun a b => pairLe a b = true) (p :: l) →
    ∀ x ∈ p :: l, x.2 ≤ (l.getLastD p).2 := by
  intro l
  induction l with
  | nil =>
    intro p h x hx
    rw [List.mem_singleton.mp hx]
    exact le_refl _
  | cons b t ih =>
    intro p h x hx
    rw [List.getLastD_cons]
    have hpb : pairLe p b = true :=
      (List.pairwise_cons.mp h).1 b (List.mem_cons_self b t)
    have ht := (List.pairwise_cons.mp h).2
    rcases List.mem_cons.mp hx with h1 | h1
    · subst h1
      calc x.2 ≤ b.2 := by simpa [pairLe] using hpb
        _ ≤ (t.getLastD b).2 := ih b ht b (List.mem_cons_self b t)
    · exact ih b ht x h1

lemma rangeStats_spec {pairs : List (String × ℚ)} (h2 : 2 ≤ pairs.length) :
    ∃ mx ∈ pairs, ∃ mn ∈ pairs,
      (∀ x ∈ pairs, x.2 ≤ mx.2) ∧ (∀ x ∈ pairs, mn.2 ≤ x.2) ∧
      rangeStats pairs =
        { diff := |mx.2 - mn.2|, maxMove := some mx.2, maxBook := some mx.1,
          minMove := some mn.2, minBook := some mn.1 } := by
  unfold rangeStats
  rw [if_pos h2]
  have hperm := List.mergeSort_perm pairs pairLe
  have hsorted := List.sorted_mergeSort pairLe_trans pairLe_total pairs
  cases hm : pairs.mergeSort pairLe with
  | nil =>
    exfalso
    have := hperm.length_eq
    rw [hm] at this
    simp at this
    omega
  | cons p ps =>
    rw [hm] at hperm hsorted
    refine ⟨ps.getLastD p, hperm.mem_iff.mp (getLastD_mem ps p), p,
      hperm.mem_iff.mp (List.mem_cons_self p ps), ?_, ?_, rfl⟩
    · intro x hx
      exact pairwise_le_getLastD ps p hsorted x (hperm.mem_iff.mpr hx)
    · intro x hx
      exact pairwise_head_le hsorted x (hperm.mem_iff.mpr hx)

lemma rangeStats_of_lt_two {pairs : List (String × ℚ)} (h : pairs.length < 2) :
    rangeStats pairs =
      { diff := 0, maxMove := none, maxBook := none, minMove := none, minBook := none } := by
  unfold rangeStats
  rw [if_neg (by omega)]

lemma rangeStats_maxBook_mem {pairs : List (String × ℚ)} {bk : String}
    (h : (rangeStats pairs).maxBook = some bk) : ∃ x ∈ pairs, x.1 = bk := by
  by_cases h2 : 2 ≤ pairs.length
  · obtain ⟨mx, hmx, mn, hmn, _, _, heq⟩ := rangeStats_spec h2
    rw [heq] at h
    exact ⟨mx, hmx, Option.some.inj h⟩
  · rw [rangeStats_of_lt_two (by omega)] at h
    simp at h

lemma rangeStats_minBook_mem {pairs : List (String × ℚ)} {bk : String}
    (h : (rangeStats pairs).minBook = some bk) : ∃ x ∈ pairs, x.1 = bk := by
  by_cases h2 : 2 ≤ pairs.length
  · obtain ⟨mx, hmx, mn, hmn, _, _, heq⟩ := rangeStats_spec h2
    rw [heq] at h
    exact ⟨mn, hmn, Option.some.inj h⟩
  · rw [rangeStats_of_lt_two (by omega)] at h
    simp at h

lemma mem_spreadPairs {books : List (String × BookMovement)} {x : String × ℚ} :
    x ∈ spreadPairs books ↔
      ∃ bm, (x.1, bm) ∈ books ∧ bm.spread_move = some x.2 := by
  simp only [spreadPairs, List.mem_filterMap]
  constructor
  · rintro ⟨p, hp, hx⟩
    cases hsm : p.2.spread_move with
    | none => rw [hsm] at hx; simp at hx
    | some v =>
      rw [hsm] at hx
      rw [Option.map_some'] at hx
      have hx2 : (p.1, v) = x := Option.some.inj hx
      refine ⟨p.2, ?_, ?_⟩
      · rw [show x.1 = p.1 from by rw [← hx2]]
        exact hp
      · rw [hsm, show v = x.2 from by rw [← hx2]]
  · rintro ⟨bm, hmem, hsm⟩
    exact ⟨(x.1, bm), hmem, by simp [hsm]⟩

lemma mem_totalPairs {books : List (String × BookMovement)} {x : String × ℚ} :
    x ∈ totalPairs books ↔
      ∃ bm, (x.1, bm) ∈ books ∧ bm.total_move = some x.2 := by
  simp only [totalPairs, List.mem_filterMap]
  constructor
  · rintro ⟨p, hp, hx⟩
    cases hsm : p.2.total_move with
    | none => rw [hsm] at hx; simp at hx
    | some v =>
      rw [hsm] at hx
      rw [Option.map_some'] at hx
      have hx2 : (p.1, v) = x := Option.some.inj hx
      refine ⟨p.2, ?_, ?_⟩
      · rw [show x.1 = p.1 from by rw [← hx2]]
        exact hp
      · rw [hsm, show v = x.2 from by rw [← hx2]]
  · rintro ⟨bm, hmem, hsm⟩
    exact ⟨(x.1, bm), hmem, by simp [hsm]⟩

/-! ### Aggregate projection and membership lemmas -/

lemma mkAggregate_game_id (g : String) (gg : GameGroup) :
    (mkAggregate g gg).game_id = g := rfl

lemma mkAggregate_books (g : String) (gg : GameGroup) :
    (mkAggregate g gg).books = gg.books := rfl

lemma mkAggregate_spread_move_diff (g : String) (gg : GameGroup) :
    (mkAggregate g gg).spread_move_diff = (rangeStats (spreadPairs gg.books)).diff := rfl

lemma mkAggregate_total_move_diff (g : String) (gg : GameGroup) :
    (mkAggregate g gg).total_move_diff = (rangeStats (totalPairs gg.books)).diff := rfl

lemma mkAggregate_max_spread_move (g : String) (gg : GameGroup) :
    (mkAggregate g gg).max_spread_move = (rangeStats (spreadPairs gg.books)).maxMove := rfl

lemma mkAggregate_min_spread_move (g : String) (gg : GameGroup) :
    (mkAggregate g gg).min_spread_move = (rangeStats (spreadPairs gg.books)).minMove := rfl

lemma mkAggregate_max_spread_move_book (g : String) (gg : GameGroup) :
    (mkAggregate g gg).max_spread_move_book =
      (rangeStats (spreadPairs gg.books)).maxBook := rfl

lemma mkAggregate_min_spread_move_book (g : String) (gg : GameGroup) :
    (mkAggregate g gg).min_spread_move_book =
      (rangeStats (spreadPairs gg.books)).minBook := rfl

lemma mkAggregate_max_total_move (g : String) (gg : GameGroup) :
    (mkAggregate g gg).max_total_move = (rangeStats (totalPairs gg.books)).maxMove := rfl

lemma mkAggregate_min_total_move (g : String) (gg : GameGroup) :
    (mkAggregate g gg).min_total_move = (rangeStats (totalPairs gg.books)).minMove := rfl

lemma mkAggregate_max_total_move_book (g : String) (gg : GameGroup) :
    (mkAggregate g gg).max_total_move_book =
      (rangeStats (totalPairs gg.books)).maxBook := rfl

lemma mkAggregate_min_total_move_book (g : String) (gg : GameGroup) :
    (mkAggregate g gg).min_total_move_book =
      (rangeStats (totalPairs gg.books)).minBook := rfl

lemma mkAggregate_max_abs_spread (g : String) (gg : GameGroup) :
    (mkAggregate g gg).max_abs_spread =
      maxAbsD ((spreadPairs gg.books).map (fun p => |p.2|)) := rfl

lemma mkAggregate_max_abs_total (g : String) (gg : GameGroup) :
    (mkAggregate g gg).max_abs_total =
      maxAbsD ((totalPairs gg.books).map (fun p => |p.2|)) := rfl

lemma mem_get_movement_by_book {date : String} {sbs : Option (List String)}
    {db : List DBRow} {a : GameAggregate} :
    a ∈ get_movement_by_book date sbs db ↔
      ∃ p ∈ groupGames (get_line_movements date sbs db),
        2 ≤ p.2.books.length ∧ a = mkAggregate p.1 p.2 := by
  unfold get_movement_by_book
  by_cases hmv : (get_line_movements date sbs db).isEmpty
  · rw [if_pos hmv]
    have hnil : get_line_movements date sbs db = [] := by
      simpa [List.isEmpty_iff] using hmv
    rw [hnil]
    simp [groupGames]
  · rw [if_neg hmv]
    rw [List.mem_mergeSort, List.mem_filterMap]
    constructor
    · rintro ⟨p, hp, hsome⟩
      by_cases h2 : 2 ≤ p.2.books.length
      · rw [if_pos h2] at hsome
        exact ⟨p, hp, h2, (Option.some.inj hsome).symm⟩
      · rw [if_neg h2] at hsome
        simp at hsome
    · rintro ⟨p, hp, h2, rfl⟩
      exact ⟨p, hp, by rw [if_pos h2]⟩

lemma optSub_none {a b : Option ℚ} (h : a = none ∨ b = none) : optSub a b = none := by
  rcases h with h | h
  · rw [h]
    cases b <;> rfl
  · rw [h]
    cases a <;> rfl

lemma aggLe_trans : ∀ a b c : GameAggregate,
    aggLe a b = true → aggLe b c = true → aggLe a c = true := by
  intro a b c hab hbc
  simp only [aggLe, decide_eq_true_eq] at hab hbc ⊢
  exact le_trans hbc hab

lemma aggLe_total : ∀ a b : GameAggregate, (aggLe a b || aggLe b a) = true := by
  intro a b
  simp only [aggLe, Bool.or_eq_true, decide_eq_true_eq]
  exact le_total (combinedScore b) (combinedScore a)

lemma joinCond_congr {bs bs2 : List String}
    (h : bs.map pythonLower = bs2.map pythonLower)
    (date : String) (m e : DBRow) :
    joinCond date (some bs) m e = joinCond date (some bs2) m e := by
  unfold joinCond
  rw [bookFilter_congr h]

lemma foldl_max_init_le : ∀ (xs : List ℚ) (x : ℚ),
    x ≤ xs.foldl (fun a b => max a b) x := by
  intro xs
  induction xs with
  | nil => intro x; exact le_refl x
  | cons y ys ih =>
    intro x
    exact le_trans (le_max_left x y) (ih (max x y))

lemma le_foldl_max : ∀ (xs : List ℚ) (x w : ℚ), w ∈ x :: xs →
    w ≤ xs.foldl (fun a b => max a b) x := by
  intro xs
  induction xs with
  | nil =>
    intro x w hw
    rw [List.mem_singleton.mp hw]
    exact le_refl _
  | cons y ys ih =>
    intro x w hw
    rw [List.foldl_cons]
    rcases List.mem_cons.mp hw with h1 | h1
    · subst h1
      exact le_trans (le_max_left w y) (foldl_max_init_le ys (max w y))
    · rcases List.mem_cons.mp h1 with h2 | h2
      · subst h2
        exact le_trans (le_max_right x w) (foldl_max_init_le ys (max x w))
      · exact ih (max x y) w (List.mem_cons_of_mem _ h2)

lemma foldl_max_mem : ∀ (xs : List ℚ) (x : ℚ),
    xs.foldl (fun a b => max a b) x ∈ x :: xs := by
  intro xs
  induction xs with
  | nil => intro x; simp
  | cons y ys ih =>
    intro x
    rcases List.mem_cons.mp (ih (max x y)) with h1 | h1
    · rcases max_choice x y with h2 | h2 <;> rw [List.foldl_cons, h1, h2]
      · simp
      · simp
    · exact List.mem_cons_of_mem x (List.mem_cons_of_mem y h1)

lemma maxAbsD_eq_zero_or_mem (vals : List ℚ) :
    maxAbsD vals = 0 ∨ maxAbsD vals ∈ vals := by
  cases vals with
  | nil => exact Or.inl rfl
  | cons x xs => exact Or.inr (foldl_max_mem xs x)

lemma le_maxAbsD {vals : List ℚ} {w : ℚ} (hw : w ∈ vals) : w ≤ maxAbsD vals := by
  cases vals with
  | nil => simp at hw
  | cons x xs => exact le_foldl_max xs x w hw

lemma maxAbsD_pairs_spec (pairs : List (String × ℚ)) :
    (maxAbsD (pairs.map (fun p => |p.2|)) = 0 ∨
      ∃ x ∈ pairs, maxAbsD (pairs.map (fun p => |p.2|)) = |x.2|) ∧
    ∀ x ∈ pairs, |x.2| ≤ maxAbsD (pairs.map (fun p => |p.2|)) := by
  constructor
  · rcases maxAbsD_eq_zero_or_mem (pairs.map (fun p => |p.2|)) with h0 | hmem
    · exact Or.inl h0
    · right
      obtain ⟨x, hx, hval⟩ := List.mem_map.mp hmem
      exact ⟨x, hx, hval.symm⟩
  · intro x hx
    exact le_maxAbsD (List.mem_map_of_mem _ hx)

/-! ### Evaluation of the concrete examples -/

lemma exDb1_joined : joinedMovements exDate none exDb1 =
    [mkMovementRow (exRow "g1" "A" "morning" (some 0) (some 200))
       (exRow "g1" "A" "evening" (some (-2)) (some 198)),
     mkMovementRow (exRow "g1" "B" "morning" (some 0) (some 200))
       (exRow "g1" "B" "evening" (some 1) (some 199))] := by
  rfl

lemma exDb1_mv : get_line_movements exDate none exDb1 =
    joinedMovements exDate none exDb1 := by
  unfold get_line_movements
  rw [exDb1_joined]
  norm_num [List.mergeSort, movementLe, optAbsLe, mkMovementRow, optSub, exRow]

lemma exDb1_groups :
    groupGames (get_line_movements exDate none exDb1) = [("g1", exGroup1)] := by
  rw [exDb1_mv, exDb1_joined]
  rfl

lemma exDb5_joined : joinedMovements exDate none exDb5 =
    [mkMovementRow (exRow "g1" "A" "morning" none (some 200))
       (exRow "g1" "A" "evening" (some (-2)) (some 198)),
     mkMovementRow (exRow "g1" "B" "morning" (some 0) (some 200))
       (exRow "g1" "B" "evening" (some 1) (some 199))] := by
  rfl

lemma exDb5_mv : get_line_movements exDate none exDb5 =
    [mkMovementRow (exRow "g1" "B" "morning" (some 0) (some 200))
       (exRow "g1" "B" "evening" (some 1) (some 199)),
     mkMovementRow (exRow "g1" "A" "morning" none (some 200))
       (exRow "g1" "A" "evening" (some (-2)) (some 198))] := by
  unfold get_line_movements
  rw [exDb5_joined]
  norm_num [List.mergeSort, movementLe, optAbsLe, mkMovementRow, optSub, exRow]

lemma exDb5_groups :
    groupGames (get_line_movements exDate none exDb5) = [("g1", exGroup5)] := by
  rw [exDb5_mv]
  rfl

lemma exDb4_joined : joinedMovements exDate none exDb4 =
    [mkMovementRow (exRow "g4" "A" "morning" (some 3) (some 210))
       (exRow "g4" "A" "evening" (some 4) (some 212))] := by
  rfl

lemma exDb4_mv : get_line_movements exDate none exDb4 =
    joinedMovements exDate none exDb4 := by
  unfold get_line_movements
  rw [exDb4_joined]
  norm_num [List.mergeSort]

/-! ### Claim theorems -/

/-- C1: for every game in the output of `get_movement_by_book` and for
spread and total independently, when at least 2 books carry a non-null
delta the reported `move_diff` is the absolute difference between the
algebraically maximum and the algebraically minimum delta across those
books (signed min/max, not min/max by absolute value). -/
theorem movement_by_book_move_diff_signed_range
    (db : List DBRow) (date : String) (sbs : Option (List String))
    (a : GameAggregate) (ha : a ∈ get_movement_by_book date sbs db) :
    (2 ≤ (spreadPairs a.books).length →
      ∃ mx ∈ spreadPairs a.books, ∃ mn ∈ spreadPairs a.books,
        (∀ x ∈ spreadPairs a.books, x.2 ≤ mx.2) ∧
        (∀ x ∈ spreadPairs a.books, mn.2 ≤ x.2) ∧
        a.spread_move_diff = |mx.2 - mn.2|) ∧
    (2 ≤ (totalPairs a.books).length →
      ∃ mx ∈ totalPairs a.books, ∃ mn ∈ totalPairs a.books,
        (∀ x ∈ totalPairs a.books, x.2 ≤ mx.2) ∧
        (∀ x ∈ totalPairs a.books, mn.2 ≤ x.2) ∧
        a.total_move_diff = |mx.2 - mn.2|) := by
  obtain ⟨p, hp, h2, rfl⟩ := mem_get_movement_by_book.mp ha
  simp only [mkAggregate_books, mkAggregate_spread_move_diff, mkAggregate_total_move_diff]
  constructor
  · intro hlen
    obtain ⟨mx, hmx, mn, hmn, hub, hlb, heq⟩ := rangeStats_spec hlen
    exact ⟨mx, hmx, mn, hmn, hub, hlb, by rw [heq]⟩
  · intro hlen
    obtain ⟨mx, hmx, mn, hmn, hub, hlb, heq⟩ := rangeStats_spec hlen
    exact ⟨mx, hmx, mn, hmn, hub, hlb, by rw [heq]⟩

/-- C2: a (game_id, sportsbook, date) triple holding both a morning and an
evening snapshot yields a movement record whose `spread_move` is exactly
`evening.away_spread - morning.away_spread` when both spreads are non-null,
and whose `total_move` is exactly `evening.total - morning.total` when both
totals are non-null. -/
theorem line_movement_delta_exact
    (db : List DBRow) (date : String) (sbs : Option (List String)) (m e : DBRow)
    (hm : m ∈ db) (he : e ∈ db)
    (hg : m.game_id = e.game_id) (hb : m.sportsbook = e.sportsbook)
    (hdm : m.snapshot_date = date) (hde : e.snapshot_date = date)
    (htm : m.snapshot_type = "morning") (hte : e.snapshot_type = "evening")
    (hfil : bookFilter sbs m.sportsbook = true) :
    ∃ r ∈ get_line_movements date sbs db,
      r.game_id = m.game_id ∧ r.sportsbook = m.sportsbook ∧
      (∀ a b : ℚ, m.away_spread = some a → e.away_spread = some b →
        r.spread_move = some (b - a)) ∧
      (∀ c d : ℚ, m.total = some c → e.total = some d →
        r.total_move = some (d - c)) := by
  have hc : joinCond date sbs m e = true :=
    joinCond_iff.mpr ⟨hg, hb, hdm.trans hde.symm, hdm, htm, hte, hde, hfil⟩
  refine ⟨mkMovementRow m e,
    mem_get_line_movements.mpr (mem_joinedMovements.mpr ⟨m, hm, e, he, hc, rfl⟩),
    rfl, rfl, ?_, ?_⟩
  · intro a b ha hb2
    simp [mkMovementRow, optSub, ha, hb2]
  · intro c d hc2 hd
    simp [mkMovementRow, optSub, hc2, hd]

/-- C3: a (game, book) pair with only one of the two snapshot types on the
date produces no movement record, and a game whose evening snapshots are
entirely missing produces zero movement records and is absent from the
aggregate output. -/
theorem single_sided_pair_produces_no_movement
    (db : List DBRow) (date : String) (sbs : Option (List String)) (g bk : String) :
    (((∀ x ∈ db, ¬(x.snapshot_date = date ∧ x.snapshot_type = "morning" ∧
          x.game_id = g ∧ x.sportsbook = bk)) ∨
      (∀ x ∈ db, ¬(x.snapshot_date = date ∧ x.snapshot_type = "evening" ∧
          x.game_id = g ∧ x.sportsbook = bk))) →
      ∀ r ∈ get_line_movements date sbs db, ¬(r.game_id = g ∧ r.sportsbook = bk)) ∧
    ((∀ x ∈ db, ¬(x.snapshot_date = date ∧ x.snapshot_type = "evening" ∧
        x.game_id = g)) →
      (∀ r ∈ get_line_movements date sbs db, r.game_id ≠ g) ∧
      (∀ a ∈ get_movement_by_book date sbs db, a.game_id ≠ g)) := by
  have key : ∀ r ∈ get_line_movements date sbs db,
      ∃ m ∈ db, ∃ e ∈ db,
        m.snapshot_date = date ∧ m.snapshot_type = "morning" ∧
        e.snapshot_date = date ∧ e.snapshot_type = "evening" ∧
        m.game_id = r.game_id ∧ e.game_id = r.game_id ∧
        m.sportsbook = r.sportsbook ∧ e.sportsbook = r.sportsbook := by
    intro r hr
    obtain ⟨m, hm, e, he, hc, rfl⟩ :=
      mem_joinedMovements.mp (mem_get_line_movements.mp hr)
    obtain ⟨hg, hb, _, hdm, htm, hte, hde, _⟩ := joinCond_iff.mp hc
    exact ⟨m, hm, e, he, hdm, htm, hde, hte, rfl, hg.symm, rfl, hb.symm⟩
  constructor
  · rintro hmiss r hr ⟨hrg, hrb⟩
    obtain ⟨m, hm, e, he, hdm, htm, hde, hte, hmg, heg, hmb, heb⟩ := key r hr
    rcases hmiss with hmiss | hmiss
    · exact hmiss m hm ⟨hdm, htm, hmg.trans hrg, hmb.trans hrb⟩
    · exact hmiss e he ⟨hde, hte, heg.trans hrg, heb.trans hrb⟩
  · intro hev
    have hrows : ∀ r ∈ get_line_movements date sbs db, r.game_id ≠ g := by
      intro r hr hrg
      obtain ⟨m, hm, e, he, hdm, htm, hde, hte, hmg, heg, hmb, heb⟩ := key r hr
      exact hev e he ⟨hde, hte, heg.trans hrg⟩
    refine ⟨hrows, ?_⟩
    intro a ha hag
    obtain ⟨p, hp, h2, rfl⟩ := mem_get_movement_by_book.mp ha
    have hbooks_ne : p.2.books ≠ [] := by
      intro hnil
      rw [hnil] at h2
      simp at h2
    obtain ⟨q, hq⟩ := List.exists_mem_of_ne_nil _ hbooks_ne
    obtain ⟨r, hr, hrg, _⟩ := books_sound_groupGames _ p hp q hq
    exact hrows r hr (hrg.trans hag)

/-- C4: a game for which no two distinct sportsbooks have a joined
morning/evening movement record on the date is excluded from the output
of `get_movement_by_book`; in particular a game with exactly one reporting
book never appears. -/
theorem game_with_fewer_than_two_books_excluded
    (db : List DBRow) (date : String) (sbs : Option (List String)) (g : String)
    (h : ¬ ∃ r1 ∈ get_line_movements date sbs db,
        ∃ r2 ∈ get_line_movements date sbs db,
          r1.game_id = g ∧ r2.game_id = g ∧ r1.sportsbook ≠ r2.sportsbook) :
    ∀ a ∈ get_movement_by_book date sbs db, a.game_id ≠ g := by
  intro a ha hag
  obtain ⟨p, hp, h2, rfl⟩ := mem_get_movement_by_book.mp ha
  have hg : p.1 = g := hag
  have hnodup := books_nodup_groupGames _ p hp
  have h2k : 2 ≤ (keysOf p.2.books).length := by simpa [keysOf] using h2
  obtain ⟨k1, hk1, k2, hk2, hk12⟩ := exists_two_ne_of_nodup hnodup h2k
  obtain ⟨v1, hv1⟩ := mem_keysOf.mp hk1
  obtain ⟨v2, hv2⟩ := mem_keysOf.mp hk2
  obtain ⟨r1, hr1, hr1g, hr1b⟩ := books_sound_groupGames _ p hp (k1, v1) hv1
  obtain ⟨r2, hr2, hr2g, hr2b⟩ := books_sound_groupGames _ p hp (k2, v2) hv2
  exact h ⟨r1, hr1, r2, hr2, hr1g.trans hg, hr2g.trans hg,
    by rw [hr1b, hr2b]; exact hk12⟩

/-- C5: a null spread (resp. total) on either side of a joined pair makes
the corresponding delta null rather than zero, and null deltas are
excluded from both min/max reductions: a null-delta book is never
selected as the max or min book of the move_diff reduction, and
`max_abs_spread` / `max_abs_total` are determined by the non-null deltas
alone — each is 0 or the absolute value of some book's non-null delta,
and it bounds every non-null delta. -/
theorem null_deltas_propagate_and_are_excluded
    (db : List DBRow) (date : String) (sbs : Option (List String)) :
    (∀ r ∈ get_line_movements date sbs db,
      ((r.open_spread = none ∨ r.close_spread = none) → r.spread_move = none) ∧
      ((r.open_total = none ∨ r.close_total = none) → r.total_move = none)) ∧
    (∀ a ∈ get_movement_by_book date sbs db, ∀ q ∈ a.books,
      (q.2.spread_move = none →
        a.max_spread_move_book ≠ some q.1 ∧ a.min_spread_move_book ≠ some q.1) ∧
      (q.2.total_move = none →
        a.max_total_move_book ≠ some q.1 ∧ a.min_total_move_book ≠ some q.1)) ∧
    (∀ a ∈ get_movement_by_book date sbs db,
      ((a.max_abs_spread = 0 ∨
          ∃ q ∈ a.books, ∃ v : ℚ, q.2.spread_move = some v ∧ a.max_abs_spread = |v|) ∧
        ∀ q ∈ a.books, ∀ v : ℚ, q.2.spread_move = some v → |v| ≤ a.max_abs_spread) ∧
      ((a.max_abs_total = 0 ∨
          ∃ q ∈ a.books, ∃ v : ℚ, q.2.total_move = some v ∧ a.max_abs_total = |v|) ∧
        ∀ q ∈ a.books, ∀ v : ℚ, q.2.total_move = some v → |v| ≤ a.max_abs_total)) := by
  refine ⟨?_, ?_, ?_⟩
  · intro r hr
    obtain ⟨m, hm, e, he, hc, rfl⟩ :=
      mem_joinedMovements.mp (mem_get_line_movements.mp hr)
    constructor
    · intro hnull
      exact optSub_none hnull.symm
    · intro hnull
      exact optSub_none hnull.symm
  · intro a ha q hq
    obtain ⟨p, hp, h2, rfl⟩ := mem_get_movement_by_book.mp ha
    rw [mkAggregate_books] at hq
    have hnodup := books_nodup_groupGames _ p hp
    constructor
    · intro hnull
      constructor
      · rw [mkAggregate_max_spread_move_book]
        intro hc
        obtain ⟨x, hx, hx1⟩ := rangeStats_maxBook_mem hc
        obtain ⟨bm, hbm, hsm⟩ := mem_spreadPairs.mp hx
        rw [hx1] at hbm
        have : bm = q.2 := entry_unique hnodup hbm (by simpa using hq)
        rw [this, hnull] at hsm
        simp at hsm
      · rw [mkAggregate_min_spread_move_book]
        intro hc
        obtain ⟨x, hx, hx1⟩ := rangeStats_minBook_mem hc
        obtain ⟨bm, hbm, hsm⟩ := mem_spreadPairs.mp hx
        rw [hx1] at hbm
        have : bm = q.2 := entry_unique hnodup hbm (by simpa using hq)
        rw [this, hnull] at hsm
        simp at hsm
    · intro hnull
      constructor
      · rw [mkAggregate_max_total_move_book]
        intro hc
        obtain ⟨x, hx, hx1⟩ := rangeStats_maxBook_mem hc
        obtain ⟨bm, hbm, hsm⟩ := mem_totalPairs.mp hx
        rw [hx1] at hbm
        have : bm = q.2 := entry_unique hnodup hbm (by simpa using hq)
        rw [this, hnull] at hsm
        simp at hsm
      · rw [mkAggregate_min_total_move_book]
        intro hc
        obtain ⟨x, hx, hx1⟩ := rangeStats_minBook_mem hc
        obtain ⟨bm, hbm, hsm⟩ := mem_totalPairs.mp hx
        rw [hx1] at hbm
        have : bm = q.2 := entry_unique hnodup hbm (by simpa using hq)
        rw [this, hnull] at hsm
        simp at hsm
  · intro a ha
    obtain ⟨p, hp, h2, rfl⟩ := mem_get_movement_by_book.mp ha
    have hs := maxAbsD_pairs_spec (spreadPairs p.2.books)
    have ht := maxAbsD_pairs_spec (totalPairs p.2.books)
    rw [mkAggregate_books, mkAggregate_max_abs_spread, mkAggregate_max_abs_total]
    refine ⟨⟨?_, ?_⟩, ?_, ?_⟩
    · rcases hs.1 with h0 | hx
      · exact Or.inl h0
      · right
        obtain ⟨x, hx, hval⟩ := hx
        obtain ⟨bm, hbm, hsm⟩ := mem_spreadPairs.mp hx
        exact ⟨(x.1, bm), hbm, x.2, hsm, hval⟩
    · intro q hq v hv
      exact hs.2 (q.1, v) (mem_spreadPairs.mpr ⟨q.2, hq, hv⟩)
    · rcases ht.1 with h0 | hx
      · exact Or.inl h0
      · right
        obtain ⟨x, hx, hval⟩ := hx
        obtain ⟨bm, hbm, hsm⟩ := mem_totalPairs.mp hx
        exact ⟨(x.1, bm), hbm, x.2, hsm, hval⟩
    · intro q hq v hv
      exact ht.2 (q.1, v) (mem_totalPairs.mpr ⟨q.2, hq, hv⟩)

/-- C6: the result list of `get_movement_by_book` is sorted descending by
`max_abs_spread + max_abs_total`: every later element has a combined score
less than or equal to every earlier one. -/
theorem results_sorted_by_combined_magnitude
    (db : List DBRow) (date : String) (sbs : Option (List String)) :
    List.Pairwise (fun a b => combinedScore b ≤ combinedScore a)
      (get_movement_by_book date sbs db) := by
  unfold get_movement_by_book
  split
  · exact List.Pairwise.nil
  · have hs := List.sorted_mergeSort aggLe_trans aggLe_total
      ((groupGames (get_line_movements date sbs db)).filterMap (fun p =>
        if 2 ≤ p.2.books.length then some (mkAggregate p.1 p.2) else none))
    exact hs.imp (fun hab => by simpa [aggLe, decide_eq_true_eq] using hab)

/-- C7: the store keeps at most one row per
(snapshot_date, snapshot_type, game_id, sportsbook) key after any sequence
of saves, and saving a snapshot whose key is already stored replaces the
prior row instead of adding a second one. -/
theorem snapshot_upsert_unique_and_replaces
    (db : List DBRow) (snaps : List OddsSnapshot) (h : UniqueKeys db) :
    UniqueKeys (save_snapshots snaps db).1 ∧
    (∀ s : OddsSnapshot, (∃ r ∈ db, rowKey r = snapKey s) →
      (save_snapshots [s] db).1.length = db.length ∧
      ∀ r ∈ (save_snapshots [s] db).1, rowKey r = snapKey s →
        r = rowOfSnapshot s) := by
  constructor
  · by_cases hs : snaps.isEmpty
    · simp only [save_snapshots, if_pos hs]
      exact h
    · simp only [save_snapshots, if_neg hs]
      exact uniqueKeys_saveStore snaps h
  · intro s hex
    have hred : (save_snapshots [s] db).1 = upsertRow db s := by
      simp [save_snapshots, saveStore]
    rw [hred]
    exact ⟨length_upsertRow_of_mem h hex, fun r hr hk => upsertRow_key_eq hr hk⟩

/-- C8 (amended): for every NON-empty input batch the save operation
reports a count equal to the number of attempted rows, and every attempted
record is processed (its key is present afterwards) — no per-record
failure aborts the batch.  An empty batch reports no count at all. -/
theorem save_reports_attempted_count_nonempty
    (snaps : List OddsSnapshot) (db : List DBRow) (h : snaps ≠ []) :
    (save_snapshots snaps db).2 = some snaps.length ∧
    ∀ s ∈ snaps, ∃ r ∈ (save_snapshots snaps db).1, rowKey r = snapKey s := by
  constructor
  · simp [save_snapshots, h]
  · intro s hs
    have hred : (save_snapshots snaps db).1 = saveStore snaps db := by
      simp [save_snapshots, h]
    rw [hred]
    exact snapKey_present_saveStore hs

/-- C8 counterexample: on the empty input list the save operation reports
no count at all, refuting the claim that EVERY input list yields a
reported `count_saved`. -/
theorem save_empty_batch_reports_no_count :
    (save_snapshots [] []).2 = none := rfl

/-- C9 (amended): for a filter list whose entries are ASCII — every name
the configuration ever passes — the sportsbook filter matches a stored
record exactly when some filter entry equals the stored name up to ASCII
case, regardless of the casing of either side; and any two filter lists
with the same Python-lowered image produce identical query and movement
results.  For non-ASCII entries the stored side (SQLite `LOWER`,
ASCII-only) and the filter side (Python `str.lower`, Unicode-aware) are
folded differently, so the unrestricted claim fails (see the
counterexample with the name "É"). -/
theorem sportsbook_filter_case_insensitive
    (db : List DBRow) (date : String) (stype : Option String) (bs : List String) :
    (bs ≠ [] → (∀ b ∈ bs, asciiOnly b = true) → ∀ r : DBRow,
      (r ∈ get_snapshots_for_date date stype (some bs) db ↔
        r ∈ db ∧ r.snapshot_date = date ∧ typeFilter stype r = true ∧
        ∃ b ∈ bs, lowerStr b = lowerStr r.sportsbook)) ∧
    (∀ bs2 : List String, bs.map pythonLower = bs2.map pythonLower →
      get_snapshots_for_date date stype (some bs) db =
        get_snapshots_for_date date stype (some bs2) db ∧
      get_line_movements date (some bs) db =
        get_line_movements date (some bs2) db) := by
  constructor
  · intro hne hascii r
    simp only [get_snapshots_for_date, List.mem_filter, Bool.and_eq_true, beq_iff_eq,
      and_assoc]
    constructor
    · rintro ⟨h1, h2, h3, h4⟩
      obtain ⟨b, hb, hbl⟩ := (bookFilter_some_iff hne r.sportsbook).mp h4
      exact ⟨h1, h2, h3, b, hb,
        (pythonLower_eq_lowerStr_of_ascii (hascii b hb)).symm.trans hbl⟩
    · rintro ⟨h1, h2, h3, b, hb, hbl⟩
      exact ⟨h1, h2, h3, (bookFilter_some_iff hne r.sportsbook).mpr
        ⟨b, hb, (pythonLower_eq_lowerStr_of_ascii (hascii b hb)).trans hbl⟩⟩
  · intro bs2 hmap
    constructor
    · unfold get_snapshots_for_date
      apply List.filter_congr
      intro r _
      rw [bookFilter_congr hmap]
    · unfold get_line_movements joinedMovements
      have : (fun m => (db.filter (joinCond date (some bs) m)).map (mkMovementRow m)) =
          (fun m => (db.filter (joinCond date (some bs2) m)).map (mkMovementRow m)) := by
        funext m
        rw [List.filter_congr (fun e _ => joinCond_congr hmap date m e)]
      rw [this]

/-- C9 counterexample: the stored sportsbook "É" and the filter entry
"É" are the very same name — certainly equal ignoring case — yet the
query returns nothing for it: SQLite's ASCII-only `LOWER` leaves the
stored "É" unchanged while Python's `str.lower` folds the filter entry
to "é", so the unrestricted case-insensitivity claim is false. -/
theorem accented_sportsbook_equal_but_not_matched :
    exRow "g1" "É" "morning" (some 0) (some 200) ∈ exDb9E ∧
    (exRow "g1" "É" "morning" (some 0) (some 200)).sportsbook = "É" ∧
    (exRow "g1" "É" "morning" (some 0) (some 200)).snapshot_date = exDate ∧
    exRow "g1" "É" "morning" (some 0) (some 200) ∉
      get_snapshots_for_date exDate none (some ["É"]) exDb9E := by
  refine ⟨by simp [exDb9E], rfl, rfl, ?_⟩
  decide

/-- C10: a game with movement records from two distinct books still
appears in the output even when fewer than 2 of its books carry a non-null
spread delta (resp. total delta); in that case the corresponding move_diff
is 0 — not null — and the corresponding max/min move values and book names
are None. -/
theorem game_with_two_books_but_few_nonnull_deltas
    (db : List DBRow) (date : String) (sbs : Option (List String)) (g : String)
    (h : ∃ r1 ∈ get_line_movements date sbs db,
        ∃ r2 ∈ get_line_movements date sbs db,
          r1.game_id = g ∧ r2.game_id = g ∧ r1.sportsbook ≠ r2.sportsbook) :
    ∃ a ∈ get_movement_by_book date sbs db, a.game_id = g ∧
      ((spreadPairs a.books).length < 2 →
        a.spread_move_diff = 0 ∧ a.max_spread_move = none ∧
        a.max_spread_move_book = none ∧ a.min_spread_move = none ∧
        a.min_spread_move_book = none) ∧
      ((totalPairs a.books).length < 2 →
        a.total_move_diff = 0 ∧ a.max_total_move = none ∧
        a.max_total_move_book = none ∧ a.min_total_move = none ∧
        a.min_total_move_book = none) := by
  obtain ⟨r1, hr1, r2, hr2, hg1, hg2, hbne⟩ := h
  obtain ⟨gg1, hgg1, hbk1⟩ := groupGames_complete hr1
  obtain ⟨gg2, hgg2, hbk2⟩ := groupGames_complete hr2
  rw [hg1] at hgg1
  rw [hg2] at hgg2
  have hgg : gg1 = gg2 :=
    entry_unique (nodup_keysOf_groupGames (get_line_movements date sbs db)) hgg1 hgg2
  rw [← hgg] at hbk2
  have h2 : 2 ≤ gg1.books.length := by
    have : 2 ≤ (keysOf gg1.books).length :=
      two_le_length_of_mem hbk1 hbk2 (fun hc => hbne hc)
    simpa [keysOf] using this
  refine ⟨mkAggregate g gg1, mem_get_movement_by_book.mpr ⟨(g, gg1), hgg1, h2, rfl⟩,
    mkAggregate_game_id g gg1, ?_, ?_⟩
  · rw [mkAggregate_books]
    intro hlt
    rw [mkAggregate_spread_move_diff, mkAggregate_max_spread_move,
      mkAggregate_max_spread_move_book, mkAggregate_min_spread_move,
      mkAggregate_min_spread_move_book, rangeStats_of_lt_two hlt]
    exact ⟨rfl, rfl, rfl, rfl, rfl⟩
  · rw [mkAggregate_books]
    intro hlt
    rw [mkAggregate_total_move_diff, mkAggregate_max_total_move,
      mkAggregate_max_total_move_book, mkAggregate_min_total_move,
      mkAggregate_min_total_move_book, rangeStats_of_lt_two hlt]
    exact ⟨rfl, rfl, rfl, rfl, rfl⟩

/-! ### Concrete witnesses -/

/-- C1 witness: on `exDb1` (book A spread delta -2, book B spread delta
+1) the output aggregate realises the signed-range property, and its
spread_move_diff is 3, not 1. -/
theorem c1_witness :
    mkAggregate "g1" exGroup1 ∈ get_movement_by_book exDate none exDb1 ∧
    2 ≤ (spreadPairs (mkAggregate "g1" exGroup1).books).length ∧
    (∃ mx ∈ spreadPairs (mkAggregate "g1" exGroup1).books,
      ∃ mn ∈ spreadPairs (mkAggregate "g1" exGroup1).books,
        (∀ x ∈ spreadPairs (mkAggregate "g1" exGroup1).books, x.2 ≤ mx.2) ∧
        (∀ x ∈ spreadPairs (mkAggregate "g1" exGroup1).books, mn.2 ≤ x.2) ∧
        (mkAggregate "g1" exGroup1).spread_move_diff = |mx.2 - mn.2|) ∧
    (mkAggregate "g1" exGroup1).spread_move_diff = 3 := by
  have hmem : mkAggregate "g1" exGroup1 ∈ get_movement_by_book exDate none exDb1 :=
    mem_get_movement_by_book.mpr
      ⟨("g1", exGroup1), by rw [exDb1_groups]; simp, by decide, rfl⟩
  have hlen : 2 ≤ (spreadPairs (mkAggregate "g1" exGroup1).books).length := by
    rw [mkAggregate_books]
    decide
  refine ⟨hmem, hlen,
    (movement_by_book_move_diff_signed_range exDb1 exDate none _ hmem).1 hlen, ?_⟩
  rw [mkAggregate_spread_move_diff,
    show spreadPairs exGroup1.books = [("A", (-2 : ℚ) - 0), ("B", (1 : ℚ) - 0)] from rfl]
  norm_num [rangeStats, List.mergeSort, pairLe, List.getLastD_cons, List.getLastD_nil]

/-- C2 witness: on `exDb1`, book A's movement record carries
spread_move = -2 - 0 and total_move = 198 - 200 exactly. -/
theorem c2_witness :
    ∃ r ∈ get_line_movements exDate none exDb1,
      r.game_id = "g1" ∧ r.sportsbook = "A" ∧
      r.spread_move = some (-2 - 0) ∧ r.total_move = some (198 - 200) := by
  obtain ⟨r, hr, hg, hb, hsp, htot⟩ := line_movement_delta_exact exDb1 exDate none
    (exRow "g1" "A" "morning" (some 0) (some 200))
    (exRow "g1" "A" "evening" (some (-2)) (some 198))
    (by simp [exDb1]) (by simp [exDb1]) rfl rfl rfl rfl rfl rfl rfl
  exact ⟨r, hr, hg, hb, hsp 0 (-2) rfl rfl, htot 200 198 rfl rfl⟩

/-- C3 witness: `exDb3` has only morning snapshots for game g3, so g3
yields no movement record and is absent from the aggregate output. -/
theorem c3_witness :
    (∀ r ∈ get_line_movements exDate none exDb3, r.game_id ≠ "g3") ∧
    (∀ a ∈ get_movement_by_book exDate none exDb3, a.game_id ≠ "g3") :=
  (single_sided_pair_produces_no_movement exDb3 exDate none "g3" "A").2 (by decide)

/-- C4 witness: in `exDb4` game g4 has exactly one reporting book, so it
is absent from the aggregate output. -/
theorem c4_witness :
    (¬ ∃ r1 ∈ get_line_movements exDate none exDb4,
        ∃ r2 ∈ get_line_movements exDate none exDb4,
          r1.game_id = "g4" ∧ r2.game_id = "g4" ∧ r1.sportsbook ≠ r2.sportsbook) ∧
    ∀ a ∈ get_movement_by_book exDate none exDb4, a.game_id ≠ "g4" := by
  have hyp : ¬ ∃ r1 ∈ get_line_movements exDate none exDb4,
      ∃ r2 ∈ get_line_movements exDate none exDb4,
        r1.game_id = "g4" ∧ r2.game_id = "g4" ∧ r1.sportsbook ≠ r2.sportsbook := by
    rw [exDb4_mv, exDb4_joined]
    decide
  exact ⟨hyp, game_with_fewer_than_two_books_excluded exDb4 exDate none "g4" hyp⟩

/-- C5 witness: in `exDb5` book A has a null morning spread; its movement
record has a null (not zero) spread delta, A is never the max or min
spread book of the aggregate, and `max_abs_spread` is |1 - 0| — book B's
non-null delta alone, unaffected by A's null delta. -/
theorem c5_witness :
    (mkMovementRow (exRow "g1" "A" "morning" none (some 200))
        (exRow "g1" "A" "evening" (some (-2)) (some 198))).spread_move = none ∧
    (mkAggregate "g1" exGroup5).max_spread_move_book ≠ some "A" ∧
    (mkAggregate "g1" exGroup5).min_spread_move_book ≠ some "A" ∧
    (mkAggregate "g1" exGroup5).max_abs_spread = |(1 : ℚ) - 0| ∧
    |(1 : ℚ) - 0| ≤ (mkAggregate "g1" exGroup5).max_abs_spread := by
  have h := null_deltas_propagate_and_are_excluded exDb5 exDate none
  have hmemr : mkMovementRow (exRow "g1" "A" "morning" none (some 200))
      (exRow "g1" "A" "evening" (some (-2)) (some 198)) ∈
        get_line_movements exDate none exDb5 :=
    mem_get_line_movements.mpr (mem_joinedMovements.mpr
      ⟨exRow "g1" "A" "morning" none (some 200), by simp [exDb5],
       exRow "g1" "A" "evening" (some (-2)) (some 198), by simp [exDb5],
       by decide, rfl⟩)
  have ha : mkAggregate "g1" exGroup5 ∈ get_movement_by_book exDate none exDb5 :=
    mem_get_movement_by_book.mpr
      ⟨("g1", exGroup5), by rw [exDb5_groups]; simp, by decide, rfl⟩
  have hq : ("A", mkBookMovement (mkMovementRow (exRow "g1" "A" "morning" none (some 200))
      (exRow "g1" "A" "evening" (some (-2)) (some 198)))) ∈
        (mkAggregate "g1" exGroup5).books := by
    rw [mkAggregate_books]
    simp [exGroup5]
  have hqB : ("B", mkBookMovement (mkMovementRow (exRow "g1" "B" "morning" (some 0) (some 200))
      (exRow "g1" "B" "evening" (some 1) (some 199)))) ∈
        (mkAggregate "g1" exGroup5).books := by
    rw [mkAggregate_books]
    simp [exGroup5]
  refine ⟨(h.1 _ hmemr).1 (Or.inl rfl), ?_, ?_, rfl, ?_⟩
  · exact ((h.2.1 _ ha _ hq).1 rfl).1
  · exact ((h.2.1 _ ha _ hq).1 rfl).2
  · exact (h.2.2 _ ha).1.2 _ hqB (1 - 0) rfl

/-- C7 witness: saving a snapshot with an already-stored key keeps the
store at one row and that row is the newly written one. -/
theorem c7_witness :
    UniqueKeys (save_snapshots [exSnap "2026-01-10T17:00:00" "A" (some (-1))]
        [rowOfSnapshot (exSnap "2026-01-10T08:00:00" "A" (some 0))]).1 ∧
    (save_snapshots [exSnap "2026-01-10T17:00:00" "A" (some (-1))]
        [rowOfSnapshot (exSnap "2026-01-10T08:00:00" "A" (some 0))]).1.length = 1 ∧
    ∀ r ∈ (save_snapshots [exSnap "2026-01-10T17:00:00" "A" (some (-1))]
        [rowOfSnapshot (exSnap "2026-01-10T08:00:00" "A" (some 0))]).1,
      rowKey r = snapKey (exSnap "2026-01-10T17:00:00" "A" (some (-1))) →
        r = rowOfSnapshot (exSnap "2026-01-10T17:00:00" "A" (some (-1))) := by
  have hu : UniqueKeys [rowOfSnapshot (exSnap "2026-01-10T08:00:00" "A" (some 0))] := by
    simp [UniqueKeys]
  have h := snapshot_upsert_unique_and_replaces _
    [exSnap "2026-01-10T17:00:00" "A" (some (-1))] hu
  have hex : ∃ r ∈ [rowOfSnapshot (exSnap "2026-01-10T08:00:00" "A" (some 0))],
      rowKey r = snapKey (exSnap "2026-01-10T17:00:00" "A" (some (-1))) :=
    ⟨rowOfSnapshot (exSnap "2026-01-10T08:00:00" "A" (some 0)), by simp, by decide⟩
  obtain ⟨hlen, hrep⟩ := h.2 _ hex
  exact ⟨h.1, hlen.trans rfl, hrep⟩

/-- C8 witness: a one-element batch reports a count of 1 and the record
lands in the store. -/
theorem c8_witness :
    (save_snapshots [exSnap "2026-01-10T08:00:00" "A" (some 0)] []).2 = some 1 ∧
    ∃ r ∈ (save_snapshots [exSnap "2026-01-10T08:00:00" "A" (some 0)] []).1,
      rowKey r = snapKey (exSnap "2026-01-10T08:00:00" "A" (some 0)) := by
  have h := save_reports_attempted_count_nonempty
    [exSnap "2026-01-10T08:00:00" "A" (some 0)] [] (by simp)
  exact ⟨h.1, h.2 _ (by simp)⟩

/-- C9 witness: filtering `exDb9` (stored casing "FanDuel") with
["FANDUEL"] is the same as with ["fanduel"], and a row is returned
exactly when some filter entry matches it ignoring case. -/
theorem c9_witness :
    get_snapshots_for_date exDate none (some ["FANDUEL"]) exDb9 =
      get_snapshots_for_date exDate none (some ["fanduel"]) exDb9 ∧
    (exRow "g1" "FanDuel" "morning" (some 0) (some 200) ∈
        get_snapshots_for_date exDate none (some ["FANDUEL"]) exDb9 ↔
      exRow "g1" "FanDuel" "morning" (some 0) (some 200) ∈ exDb9 ∧
        (exRow "g1" "FanDuel" "morning" (some 0) (some 200)).snapshot_date = exDate ∧
        typeFilter none (exRow "g1" "FanDuel" "morning" (some 0) (some 200)) = true ∧
        ∃ b ∈ ["FANDUEL"], lowerStr b =
          lowerStr (exRow "g1" "FanDuel" "morning" (some 0) (some 200)).sportsbook) := by
  have h := sportsbook_filter_case_insensitive exDb9 exDate none ["FANDUEL"]
  exact ⟨(h.2 ["fanduel"] (by decide)).1, h.1 (by simp) (by decide) _⟩

/-- C10 witness: in `exDb10` both books report, every spread delta is
null, and the game still appears with spread_move_diff 0 and None
spread min/max fields. -/
theorem c10_witness :
    (∃ r1 ∈ get_line_movements exDate none exDb10,
      ∃ r2 ∈ get_line_movements exDate none exDb10,
        r1.game_id = "g1" ∧ r2.game_id = "g1" ∧ r1.sportsbook ≠ r2.sportsbook) ∧
    ∃ a ∈ get_movement_by_book exDate none exDb10, a.game_id = "g1" ∧
      ((spreadPairs a.books).length < 2 →
        a.spread_move_diff = 0 ∧ a.max_spread_move = none ∧
        a.max_spread_move_book = none ∧ a.min_spread_move = none ∧
        a.min_spread_move_book = none) ∧
      ((totalPairs a.books).length < 2 →
        a.total_move_diff = 0 ∧ a.max_total_move = none ∧
        a.max_total_move_book = none ∧ a.min_total_move = none ∧
        a.min_total_move_book = none) := by
  have hyp : ∃ r1 ∈ get_line_movements exDate none exDb10,
      ∃ r2 ∈ get_line_movements exDate none exDb10,
        r1.game_id = "g1" ∧ r2.game_id = "g1" ∧ r1.sportsbook ≠ r2.sportsbook := by
    refine ⟨mkMovementRow (exRow "g1" "A" "morning" none (some 200))
        (exRow "g1" "A" "evening" none (some 198)),
      mem_get_line_movements.mpr (mem_joinedMovements.mpr
        ⟨exRow "g1" "A" "morning" none (some 200), by simp [exDb10],
         exRow "g1" "A" "evening" none (some 198), by simp [exDb10],
         by decide, rfl⟩),
      mkMovementRow (exRow "g1" "B" "morning" none (some 200))
        (exRow "g1" "B" "evening" none (some 199)),
      mem_get_line_movements.mpr (mem_joinedMovements.mpr
        ⟨exRow "g1" "B" "morning" none (some 200), by simp [exDb10],
         exRow "g1" "B" "evening" none (some 199), by simp [exDb10],
         by decide, rfl⟩), rfl, rfl, by decide⟩
  exact ⟨hyp, game_with_two_books_but_few_nonnull_deltas exDb10 exDate none "g1" hyp⟩

end RTLB
